import Mathlib

/-!
# Verification of the fesoni-ai task poller, similarity scorer and service shims

Shallow embedding of the TypeScript sources of `Crisoal/fesoni-ai`:

* `src/services/amazonService.ts` — `AmazonService.searchProducts`,
  `FoxitService.checkTaskStatus`, `FoxitService.mapFoxitStatusToOurFormat`,
  `FoxitService.createStylePortfolio`;
* `src/components/ThemeToggle.tsx` (ChatInterface) — `pollProcessingStatus`;
* `src/services/reverseSearchService.ts` — `calculateSimilarityScore`,
  `deduplicateProducts`;
* `src/services/openaiService.ts` — `OpenAIService.analyzeStylePreferences`.

Remote HTTP calls are modelled by explicit outcome values (oracles); JS
numbers that the claims depend on are modelled as exact integers or
rationals.  JS string truthiness (`a || b`) is modelled by `jsOrOpt` /
`jsOrStr`.
-/

namespace Fesoni

/-! ## Task status vocabulary (FoxitService) -/

/-- The local status vocabulary of a `ProcessingTask`:
`status ∈ processing | completed | failed`. -/
inductive Status where
  | processing
  | completed
  | failed
deriving DecidableEq, Repr

/-- JS `a || b` on two possibly-absent strings: an absent or empty (falsy)
`a` falls through to `b`. -/
def jsOrOpt (a b : Option String) : Option String :=
  match a with
  | some s => if s = "" then b else some s
  | none => b

/-- JS `a || b` where `b` is a plain string. -/
def jsOrStr (a : Option String) (b : String) : String :=
  match a with
  | some s => if s = "" then b else s
  | none => b

/-- JS truthiness of a possibly-absent string. -/
def jsTruthy (a : Option String) : Bool :=
  match a with
  | some s => !(s = "")
  | none => false

/-- JS `String.prototype.toUpperCase` on the ASCII strings the service
compares against, modelled characterwise (the library's `String.toUpper`
is equivalent but does not reduce inside `decide`). -/
def jsToUpper (s : String) : String := ⟨s.data.map Char.toUpper⟩

/-- JS `String.prototype.toLowerCase`, modelled characterwise. -/
def jsToLower (s : String) : String := ⟨s.data.map Char.toLower⟩

/-- `FoxitService.mapFoxitStatusToOurFormat` (amazonService.ts:1502-1513):
`switch (foxitStatus?.toUpperCase())` with cases `PENDING`, `PROCESSING`
falling through to `processing`, `COMPLETED` to `completed`, and `FAILED`
together with the `default` arm (which also catches an absent status) to
`failed`. -/
def mapFoxitStatusToOurFormat (foxitStatus : Option String) : Status :=
  match foxitStatus with
  | none => .failed
  | some s =>
    if jsToUpper s = "PENDING" ∨ jsToUpper s = "PROCESSING" then .processing
    else if jsToUpper s = "COMPLETED" then .completed
    else .failed

/-- The JSON body of a task-status response, with the fields
`checkTaskStatus` reads (each possibly absent). -/
structure TaskStatusBody where
  status : Option String := none
  state : Option String := none
  resultDocumentId : Option String := none
  documentId : Option String := none
  outputDocumentId : Option String := none
  taskId : Option String := none
  message : Option String := none
deriving DecidableEq, Repr

/-- The outcome of one `fetch` of the task-status endpoint: a rejected
promise (network error), or a response with its `ok` flag, HTTP status code
and JSON body (`none` when `response.json()` fails). -/
inductive FetchOutcome where
  | networkError (msg : String)
  | response (ok : Bool) (statusCode : Nat) (body : Option TaskStatusBody)
deriving DecidableEq, Repr

/-- The `TaskStatusResponse` record `checkTaskStatus` returns. -/
structure TaskStatusResponse where
  taskId : String
  status : Status
  message : String
  downloadUrl : Option String := none
  documentId : Option String := none
deriving DecidableEq, Repr

/-- `FoxitService.checkTaskStatus` (amazonService.ts:1432-1500).  The whole
body sits in a `try`/`catch` whose `catch` returns `status: 'failed'`, so the
function never throws: a network error, a non-OK response (the thrown
`Task status check failed` error is caught by the function's own `catch`),
and an unparsable body all yield `status: 'failed'`; a 404 returns `failed`
directly.  On a parsed body the remote status (`result.status || result.state`)
is mapped through `mapFoxitStatusToOurFormat`, and `downloadUrl` is set to the
document id exactly when the mapped status is `completed` and a document id is
(truthily) present. -/
def checkTaskStatus (taskId : String) (outcome : FetchOutcome) : TaskStatusResponse :=
  match outcome with
  | .networkError msg =>
    { taskId, status := .failed, message := "Status check failed: " ++ msg }
  | .response ok statusCode body =>
    if !ok then
      if statusCode = 404 then
        { taskId, status := .failed,
          message := "Task not found - may have expired or completed" }
      else
        { taskId, status := .failed, message := "Status check failed: Task status check failed" }
    else
      match body with
      | none =>
        { taskId, status := .failed, message := "Status check failed: invalid JSON" }
      | some result =>
        let mappedStatus := mapFoxitStatusToOurFormat (jsOrOpt result.status result.state)
        let documentId := jsOrOpt (jsOrOpt result.resultDocumentId result.documentId)
          result.outputDocumentId
        let downloadUrl :=
          if mappedStatus = .completed ∧ jsTruthy documentId then documentId else none
        { taskId := jsOrStr result.taskId taskId,
          status := mappedStatus,
          message := jsOrStr result.message "Task status message",
          downloadUrl := downloadUrl,
          documentId := documentId }

/-- C4: the translation table of the remote status vocabulary.
`PENDING`/`PROCESSING` (case-insensitively) map to `processing`, `COMPLETED`
to `completed`, and everything else — `FAILED`, unrecognized strings and an
absent status — to `failed`. -/
theorem mapFoxitStatusToOurFormat_spec (s : Option String) :
    (mapFoxitStatusToOurFormat s = Status.processing ↔
      (∃ str, s = some str ∧ (jsToUpper str = "PENDING" ∨ jsToUpper str = "PROCESSING"))) ∧
    (mapFoxitStatusToOurFormat s = Status.completed ↔
      (∃ str, s = some str ∧ jsToUpper str = "COMPLETED")) ∧
    (mapFoxitStatusToOurFormat s = Status.failed ↔
      (s = none ∨ ∃ str, s = some str ∧ jsToUpper str ≠ "PENDING" ∧
        jsToUpper str ≠ "PROCESSING" ∧ jsToUpper str ≠ "COMPLETED")) := by
  match s with
  | none => simp [mapFoxitStatusToOurFormat]
  | some str =>
    simp only [mapFoxitStatusToOurFormat]
    split_ifs with hp hc
    · refine ⟨⟨fun _ => ⟨str, rfl, hp⟩, fun _ => rfl⟩, ?_, ?_⟩
      · constructor
        · intro h; exact nomatch h
        · rintro ⟨str', h', hup⟩
          injection h' with h''; subst h''
          rcases hp with h | h <;> rw [h] at hup <;> exact absurd hup (by decide)
      · constructor
        · intro h; exact nomatch h
        · rintro (h | ⟨str', h', h1, h2, _⟩)
          · exact nomatch h
          · injection h' with h''; subst h''
            rcases hp with h | h
            · exact absurd h h1
            · exact absurd h h2
    · refine ⟨?_, ⟨fun _ => ⟨str, rfl, hc⟩, fun _ => rfl⟩, ?_⟩
      · constructor
        · intro h; exact nomatch h
        · rintro ⟨str', h', hup⟩
          injection h' with h''; subst h''
          exact absurd hup hp
      · constructor
        · intro h; exact nomatch h
        · rintro (h | ⟨str', h', _, _, h3⟩)
          · exact nomatch h
          · injection h' with h''; subst h''
            exact absurd hc h3
    · have hp1 : jsToUpper str ≠ "PENDING" := fun h => hp (Or.inl h)
      have hp2 : jsToUpper str ≠ "PROCESSING" := fun h => hp (Or.inr h)
      refine ⟨?_, ?_, ⟨fun _ => Or.inr ⟨str, rfl, hp1, hp2, hc⟩, fun _ => rfl⟩⟩
      · constructor
        · intro h; exact nomatch h
        · rintro ⟨str', h', hup⟩
          injection h' with h''; subst h''
          exact absurd hup hp
      · constructor
        · intro h; exact nomatch h
        · rintro ⟨str', h', hup⟩
          injection h' with h''; subst h''
          exact absurd hup hc

/-! ## Task poller (ChatInterface.pollProcessingStatus, ThemeToggle.tsx:273-385)

The poller runs `setInterval(..., 5000)` with a `setTimeout(clearInterval, 300000)`
hard stop, i.e. at most 60 ticks of 5 seconds each.  Each tick maps over
`documents.processedVersions!` — the list captured by the closure when the
batch was created, NOT the latest view-model state — queries
`checkTaskStatus` for every entry whose snapshot status is `processing`, and
overwrites the message's `processedVersions` with the freshly computed list.
Remote responses are modelled by an oracle `Nat → String → FetchOutcome`
giving, for each tick index (from 1) and task id, that tick's fetch outcome. -/

/-- One entry of `processedVersions` in the chat view model. -/
structure ProcessedVersion where
  type : String
  taskId : String
  status : Status
  downloadUrl : Option String := none
deriving DecidableEq, Repr

/-- One task's update inside a tick (the `documents.processedVersions!.map`
callback): returns the new version together with a flag that is `true`
exactly when the callback executed `allCompleted = false` (its `else` branch:
the task is still processing).  The `catch` branch of the callback
("Keep as processing, will retry on next poll") is unreachable because
`checkTaskStatus` never throws, so it has no counterpart here. -/
def tickVersion (pdfServicesUrl : String) (oracle : String → FetchOutcome)
    (version : ProcessedVersion) : ProcessedVersion × Bool :=
  if version.status = .processing then
    let taskStatus := checkTaskStatus version.taskId (oracle version.taskId)
    if taskStatus.status = .completed then
      ({ version with
          status := .completed,
          downloadUrl := some (jsOrStr taskStatus.downloadUrl
            (pdfServicesUrl ++ "/api/documents/" ++
              (taskStatus.documentId.getD "undefined") ++ "/download")) }, false)
    else if taskStatus.status = .failed then
      ({ version with status := .failed }, false)
    else
      (version, true)
  else
    (version, false)

/-- One tick of the interval callback over the (stale) snapshot: the new
`processedVersions` written to the view model, and `allCompleted` (initially
`true`, cleared by any still-processing task). -/
def pollTick (pdfServicesUrl : String) (snapshot : List ProcessedVersion)
    (oracle : String → FetchOutcome) : List ProcessedVersion × Bool :=
  let results := snapshot.map (tickVersion pdfServicesUrl oracle)
  (results.map Prod.fst, results.all fun r => !r.2)

/-- The interval loop: at most `fuel` further ticks starting at tick index
`t`; each tick recomputes the view from the same `snapshot`.  Returns the
successive views written to the view model and whether the loop cleared its
own interval because a tick saw `allCompleted` (and so emitted the batch
summary message). -/
def pollLoop (pdfServicesUrl : String) (snapshot : List ProcessedVersion)
    (oracle : Nat → String → FetchOutcome) :
    Nat → Nat → List (List ProcessedVersion) × Bool
  | 0, _ => ([], false)
  | Nat.succ fuel, t =>
    let tick := pollTick pdfServicesUrl snapshot (oracle t)
    if tick.2 then
      ([tick.1], true)
    else
      let rest := pollLoop pdfServicesUrl snapshot oracle fuel (t + 1)
      (tick.1 :: rest.1, rest.2)

/-- The 300-second `setTimeout` handler: it only reads the current message
state — it changes no task's status — and appends the "still pending"
notice exactly when some task is still `processing`. -/
def timeoutStep (currentView : List ProcessedVersion) : List ProcessedVersion × Bool :=
  (currentView, currentView.any fun v => v.status == Status.processing)

/-- The result of one polling batch: the view written after each executed
tick, whether a tick emitted the completion summary, the versions as they
stand when the 300 s timeout fires, and whether the timeout emitted the
"tasks still pending" message. -/
structure PollerRun where
  views : List (List ProcessedVersion)
  summaryEmitted : Bool
  finalView : List ProcessedVersion
  pendingEmitted : Bool
deriving DecidableEq, Repr

/-- `pollProcessingStatus` (ThemeToggle.tsx:273-385) for one batch:
`setInterval` every 5 s (tick indices 1, 2, ...), cleared either by a tick
that saw `allCompleted` or by the unconditional 300 s timeout — hence at
most 60 ticks — followed by the timeout handler. -/
def pollProcessingStatus (pdfServicesUrl : String) (initial : List ProcessedVersion)
    (oracle : Nat → String → FetchOutcome) : PollerRun :=
  let run := pollLoop pdfServicesUrl initial oracle 60 1
  let lastView := run.1.getLast?.getD initial
  let timeout := timeoutStep lastView
  { views := run.1, summaryEmitted := run.2,
    finalView := timeout.1, pendingEmitted := timeout.2 }

/-! ### C1: a failing status query marks the task failed, not retried -/

/-- The batch of C1's failing input: one compression task, freshly submitted. -/
def c1Task : ProcessedVersion :=
  { type := "compressed", taskId := "task-1", status := .processing }

/-- C1's oracle: every status query rejects with a network error, forever. -/
def c1Oracle : Nat → String → FetchOutcome := fun _ _ => .networkError "fetch failed"

/-- Evaluation of the code at C1's failing input, refuting the claim:
`checkTaskStatus` catches the network error and returns `status: 'failed'`
instead of rethrowing, so the poller's "keep as processing, retry next tick"
catch never runs; a batch whose every query permanently errors is marked
all-failed on the very first tick, the completion summary is emitted, and
polling stops immediately — not at the 300 s timeout with tasks still
`processing`. -/
theorem checkTaskStatus_error_fails_first_tick :
    (checkTaskStatus "task-1" (.networkError "fetch failed")).status = Status.failed ∧
    (pollProcessingStatus "url" [c1Task] c1Oracle).views =
      [[{ c1Task with status := .failed }]] ∧
    (pollProcessingStatus "url" [c1Task] c1Oracle).summaryEmitted = true ∧
    (pollProcessingStatus "url" [c1Task] c1Oracle).pendingEmitted = false := by
  refine ⟨rfl, ?_, ?_, ?_⟩ <;> decide

/-! ### C2: a completed task is re-polled and can revert -/

/-- Task A of C2's failing input. -/
def c2TaskA : ProcessedVersion :=
  { type := "compressed", taskId := "A", status := .processing }

/-- Task B of C2's failing input. -/
def c2TaskB : ProcessedVersion :=
  { type := "social-images", taskId := "B", status := .processing }

/-- C2's oracle: tick 1 reports A `COMPLETED` (document `docA`) and B
`PENDING`; tick 2 rejects A's query with a network error and reports B
`COMPLETED` (document `docB`). -/
def c2Oracle : Nat → String → FetchOutcome := fun t id =>
  if t = 1 then
    if id = "A" then
      .response true 200 (some { status := some "COMPLETED", resultDocumentId := some "docA" })
    else
      .response true 200 (some { status := some "PENDING" })
  else
    if id = "A" then
      .networkError "fetch failed"
    else
      .response true 200 (some { status := some "COMPLETED", resultDocumentId := some "docB" })

/-- Evaluation of the code at C2's failing input, refuting the claim: every
tick maps over the stale `documents.processedVersions` closure (all
`processing`), so task A — shown `completed` in the view model after tick 1 —
is queried again on tick 2, and the erroring query (mapped to `failed` by
`checkTaskStatus`) overwrites its view-model status with `failed`:
`completed` is not terminal. -/
theorem pollProcessingStatus_not_monotonic :
    (pollProcessingStatus "url" [c2TaskA, c2TaskB] c2Oracle).views.map
        (List.map fun v => (v.taskId, v.status)) =
      [[("A", Status.completed), ("B", Status.processing)],
        [("A", Status.failed), ("B", Status.completed)]] := by
  decide

/-! ### C3: ticking cadence, hard 300 s ceiling, pending notice -/

/-- A tick callback leaves `allCompleted` cleared for a task exactly when
that task's freshly computed view entry is still `processing`. -/
lemma tickVersion_processing_iff (url : String) (orc : String → FetchOutcome)
    (v : ProcessedVersion) :
    (tickVersion url orc v).2 = true ↔
      (tickVersion url orc v).1.status = Status.processing := by
  simp only [tickVersion]
  split_ifs with h1 h2 h3 <;> simp_all

/-- If a tick did not see `allCompleted`, the view it wrote contains a task
still `processing`. -/
lemma pollTick_not_allCompleted {url : String} {snap : List ProcessedVersion}
    {orc : String → FetchOutcome} (h : (pollTick url snap orc).2 = false) :
    (pollTick url snap orc).1.any (fun v => v.status == Status.processing) = true := by
  simp only [pollTick] at h ⊢
  rw [List.all_eq_false] at h
  obtain ⟨r, hr, hflag⟩ := h
  rw [List.any_eq_true]
  refine ⟨r.1, List.mem_map_of_mem Prod.fst hr, ?_⟩
  obtain ⟨v, _, rfl⟩ := List.mem_map.mp hr
  have hproc := (tickVersion_processing_iff url orc v).mp (by simpa using hflag)
  simp [hproc]

/-- If a tick saw `allCompleted`, the view it wrote contains no task still
`processing`. -/
lemma pollTick_allCompleted {url : String} {snap : List ProcessedVersion}
    {orc : String → FetchOutcome} (h : (pollTick url snap orc).2 = true) :
    (pollTick url snap orc).1.all (fun v => !(v.status == Status.processing)) = true := by
  simp only [pollTick] at h ⊢
  rw [List.all_eq_true] at h ⊢
  intro x hx
  obtain ⟨r, hr, rfl⟩ := List.mem_map.mp hx
  obtain ⟨v, _, rfl⟩ := List.mem_map.mp hr
  have hflag : (tickVersion url orc v).2 = false := by simpa using h _ hr
  have := (tickVersion_processing_iff url orc v).not.mp (by simp [hflag])
  simpa using this

/-- The interval loop executes at most `fuel` ticks. -/
lemma pollLoop_length_le (url : String) (snap : List ProcessedVersion)
    (oracle : Nat → String → FetchOutcome) :
    ∀ fuel t, (pollLoop url snap oracle fuel t).1.length ≤ fuel := by
  intro fuel
  induction fuel with
  | zero => intro t; simp [pollLoop]
  | succ fuel ih =>
    intro t
    simp only [pollLoop]
    split_ifs with hc
    · simp
    · simpa using ih (t + 1)

/-- With fuel left, the interval loop executes at least one tick. -/
lemma pollLoop_ne_nil (url : String) (snap : List ProcessedVersion)
    (oracle : Nat → String → FetchOutcome) (fuel t : Nat) (hf : 0 < fuel) :
    (pollLoop url snap oracle fuel t).1 ≠ [] := by
  match fuel with
  | Nat.succ fuel =>
    simp only [pollLoop]
    split_ifs with hc <;> simp

/-- Every view except possibly the last one still contains a `processing`
task: ticking continues only while some task is `processing`. -/
lemma pollLoop_mid_processing (url : String) (snap : List ProcessedVersion)
    (oracle : Nat → String → FetchOutcome) :
    ∀ fuel t i view, (pollLoop url snap oracle fuel t).1.get? i = some view →
      i + 1 < (pollLoop url snap oracle fuel t).1.length →
      view.any (fun v => v.status == Status.processing) = true := by
  intro fuel
  induction fuel with
  | zero => intro t i view h _; simp [pollLoop] at h
  | succ fuel ih =>
    intro t i view h hlen
    simp only [pollLoop] at h hlen
    split_ifs at h hlen with hc
    · simp at hlen
    · match i with
      | 0 =>
        simp only [List.get?] at h
        cases h
        exact pollTick_not_allCompleted (by simpa using hc)
      | Nat.succ j =>
        exact ih (t + 1) j view (by simpa using h) (by simpa using hlen)

/-- If the interval loop stopped before exhausting its fuel, its final view
contains no `processing` task (it stopped because of `allCompleted`). -/
lemma pollLoop_early_stop (url : String) (snap : List ProcessedVersion)
    (oracle : Nat → String → FetchOutcome) :
    ∀ fuel t, (pollLoop url snap oracle fuel t).1.length < fuel →
      ∀ view, (pollLoop url snap oracle fuel t).1.getLast? = some view →
        view.all (fun v => !(v.status == Status.processing)) = true := by
  intro fuel
  induction fuel with
  | zero => intro t h; omega
  | succ fuel ih =>
    intro t hlen view hlast
    simp only [pollLoop] at hlen hlast
    split_ifs at hlen hlast with hc
    · simp only [List.getLast?_singleton, Option.some.injEq] at hlast
      subst hlast
      exact pollTick_allCompleted (by simpa using hc)
    · match hrest : (pollLoop url snap oracle fuel (t + 1)).1 with
      | [] =>
        have h0 : 0 < fuel := by
          rw [hrest] at hlen; simp at hlen; omega
        exact absurd hrest (pollLoop_ne_nil url snap oracle fuel (t + 1) h0)
      | b :: bs =>
        rw [hrest] at hlast hlen
        rw [List.getLast?_cons_cons] at hlast
        refine ih (t + 1) ?_ view (by rw [hrest]; exact hlast)
        rw [hrest]
        simpa using hlen

/-- C3: at most 60 ticks of the 5-second interval ever run (the 300 s
`setTimeout(clearInterval, ...)` is an unconditional hard ceiling); at least
one tick runs; every non-final tick's view still held a `processing` task
(ticks keep firing exactly while one does), and a stop before the ceiling
happens only with no task `processing`; the timeout handler leaves the final
view exactly as the last tick wrote it (tasks still `processing` are not
forced to `failed`); and the "tasks still pending" notice is emitted exactly
when a `processing` task remains. -/
theorem pollProcessingStatus_temporal_spec (url : String)
    (initial : List ProcessedVersion) (oracle : Nat → String → FetchOutcome) :
    (pollProcessingStatus url initial oracle).views.length ≤ 60 ∧
    0 < (pollProcessingStatus url initial oracle).views.length ∧
    (∀ i view, (pollProcessingStatus url initial oracle).views.get? i = some view →
      i + 1 < (pollProcessingStatus url initial oracle).views.length →
      view.any (fun v => v.status == Status.processing) = true) ∧
    ((pollProcessingStatus url initial oracle).views.length < 60 →
      ∀ view, (pollProcessingStatus url initial oracle).views.getLast? = some view →
        view.all (fun v => !(v.status == Status.processing)) = true) ∧
    (pollProcessingStatus url initial oracle).finalView =
      (pollProcessingStatus url initial oracle).views.getLast?.getD initial ∧
    ((pollProcessingStatus url initial oracle).pendingEmitted = true ↔
      ∃ v ∈ (pollProcessingStatus url initial oracle).finalView,
        v.status = Status.processing) := by
  refine ⟨?_, ?_, ?_, ?_, rfl, ?_⟩
  · exact pollLoop_length_le url initial oracle 60 1
  · have := pollLoop_ne_nil url initial oracle 60 1 (by omega)
    simpa [pollProcessingStatus, List.length_pos] using this
  · intro i view h hlen
    exact pollLoop_mid_processing url initial oracle 60 1 i view h hlen
  · intro hlen view hlast
    exact pollLoop_early_stop url initial oracle 60 1 hlen view hlast
  · simp only [pollProcessingStatus, timeoutStep]
    rw [List.any_eq_true]
    constructor
    · rintro ⟨v, hv, hbeq⟩
      exact ⟨v, hv, by simpa using hbeq⟩
    · rintro ⟨v, hv, hst⟩
      exact ⟨v, hv, by simp [hst]⟩

/-! ## Similarity scorer (reverseSearchService.ts)

`AmazonProduct` keeps the fields of the `AmazonProduct` interface that the
verified functions read; prices are JS numbers, modelled as exact integers
(the claims under verification use only integer-valued prices; `rating` is
kept exact as a rational). -/

/-- A catalog product record (amazonService.ts `AmazonProduct`). -/
structure AmazonProduct where
  product_id : String := ""
  title : String := ""
  url : String := ""
  image : String := ""
  price : Int := 0
  retail_price : Int := 0
  rating : Rat := 0
  reviews : Nat := 0
  prime : Bool := false
  delivery_message : String := ""
  category : Option String := none
deriving DecidableEq, Repr

/-- The style attributes driving a reverse search
(reverseSearchService.ts `StyleSearchParams`). -/
structure StyleSearchParams where
  aesthetics : List String := []
  colors : List String := []
  textures : List String := []
  silhouettes : List String := []
  mood : List String := []
  searchKeywords : List String := []
  budget : Option Int := none
deriving DecidableEq, Repr

/-- Does `sub` occur in `text` starting at this or any later position?
(Helper for JS `String.prototype.includes`.) -/
def includesAux (sub : List Char) : List Char → Bool
  | [] => sub.isEmpty
  | c :: rest => sub.isPrefixOf (c :: rest) || includesAux sub rest

/-- JS `text.includes(sub)`: `sub` occurs as a contiguous substring of
`text`. -/
def strIncludes (text sub : String) : Bool := includesAux sub.data text.data

/-- `${product.title} ${product.category || ''}`, lowercased
(reverseSearchService.ts:190). -/
def productText (product : AmazonProduct) : String :=
  jsToLower (product.title ++ " " ++ product.category.getD "")

/-- How many of the group's terms occur (lowercased) in the product text:
the per-group `forEach`/`+= 1` accumulation of `calculateSimilarityScore`. -/
def countMatches (terms : List String) (text : String) : Nat :=
  (terms.filter fun term => strIncludes text (jsToLower term)).length

/-- `calculateSimilarityScore` (reverseSearchService.ts:186-238), with JS
float arithmetic carried out exactly over `ℚ`: per group,
`groupScore / max(groupLength, 1) * weight` is accumulated into `score`,
every group's weight is accumulated into `maxScore`, and the result is
`maxScore > 0 ? min(score / maxScore, 1) : 0.5`. -/
def calculateSimilarityScore (product : AmazonProduct) (params : StyleSearchParams) : Rat :=
  let text := productText product
  let aestheticWeight : Rat := 0.4
  let keywordWeight : Rat := 0.3
  let colorWeight : Rat := 0.15
  let moodWeight : Rat := 0.15
  let score : Rat :=
    ((countMatches params.aesthetics text : Rat) / (max params.aesthetics.length 1 : Nat))
        * aestheticWeight
      + ((countMatches params.searchKeywords text : Rat)
          / (max params.searchKeywords.length 1 : Nat)) * keywordWeight
      + ((countMatches params.colors text : Rat) / (max params.colors.length 1 : Nat))
        * colorWeight
      + ((countMatches params.mood text : Rat) / (max params.mood.length 1 : Nat))
        * moodWeight
  let maxScore : Rat := aestheticWeight + keywordWeight + colorWeight + moodWeight
  if 0 < maxScore then min (score / maxScore) 1 else 0.5

/-- The spec's description of the score, written from its words: the sum
over the four groups of the group's weight times the fraction of the group's
terms found in the product text, an empty group's denominator floored to 1. -/
def specSimilarityScore (product : AmazonProduct) (params : StyleSearchParams) : Rat :=
  let fraction := fun (terms : List String) =>
    (countMatches terms (productText product) : Rat) / (max terms.length 1 : Nat)
  0.4 * fraction params.aesthetics + 0.3 * fraction params.searchKeywords
    + 0.15 * fraction params.colors + 0.15 * fraction params.mood

/-- A group's match fraction lies in `[0, 1]`. -/
lemma fraction_mem_unit (terms : List String) (text : String) :
    0 ≤ (countMatches terms text : Rat) / (max terms.length 1 : Nat) ∧
      (countMatches terms text : Rat) / (max terms.length 1 : Nat) ≤ 1 := by
  have hden : (0 : Rat) < (max terms.length 1 : Nat) := by
    have : 1 ≤ max terms.length 1 := le_max_right _ _
    exact_mod_cast Nat.lt_of_lt_of_le Nat.zero_lt_one this
  constructor
  · exact div_nonneg (by positivity) hden.le
  · rw [div_le_one hden]
    have hle : countMatches terms text ≤ max terms.length 1 := by
      have := List.length_filter_le (fun term => strIncludes text (jsToLower term)) terms
      exact le_trans this (le_max_left _ _)
    exact_mod_cast hle

/-- C5: the similarity score is the weighted keyword-overlap sum the spec
describes (aesthetics 0.40, keywords 0.30, colors 0.15, mood 0.15, empty
groups contributing 0), and it always lies in `[0, 1]`.  Determinism for
identical inputs is immediate: the embedding is a pure function of
`product` and `params`. -/
theorem calculateSimilarityScore_spec (product : AmazonProduct) (params : StyleSearchParams) :
    0 ≤ calculateSimilarityScore product params ∧
    calculateSimilarityScore product params ≤ 1 ∧
    calculateSimilarityScore product params = specSimilarityScore product params := by
  obtain ⟨ha0, ha1⟩ := fraction_mem_unit params.aesthetics (productText product)
  obtain ⟨hk0, hk1⟩ := fraction_mem_unit params.searchKeywords (productText product)
  obtain ⟨hc0, hc1⟩ := fraction_mem_unit params.colors (productText product)
  obtain ⟨hm0, hm1⟩ := fraction_mem_unit params.mood (productText product)
  simp only [calculateSimilarityScore, specSimilarityScore]
  set fa := (countMatches params.aesthetics (productText product) : Rat)
    / (max params.aesthetics.length 1 : Nat) with hfa
  set fk := (countMatches params.searchKeywords (productText product) : Rat)
    / (max params.searchKeywords.length 1 : Nat) with hfk
  set fc := (countMatches params.colors (productText product) : Rat)
    / (max params.colors.length 1 : Nat) with hfc
  set fm := (countMatches params.mood (productText product) : Rat)
    / (max params.mood.length 1 : Nat) with hfm
  split_ifs with hpos
  · have hden : (0.4 + 0.3 + 0.15 + 0.15 : Rat) = 1 := by norm_num
    rw [hden, div_one]
    have hsum1 : fa * 0.4 + fk * 0.3 + fc * 0.15 + fm * 0.15 ≤ 1 := by
      have h4 : fa * 0.4 ≤ 0.4 := by nlinarith
      have h3 : fk * 0.3 ≤ 0.3 := by nlinarith
      have h2 : fc * 0.15 ≤ 0.15 := by nlinarith
      have h1 : fm * 0.15 ≤ 0.15 := by nlinarith
      linarith
    have hsum0 : 0 ≤ fa * 0.4 + fk * 0.3 + fc * 0.15 + fm * 0.15 := by
      have h4 : 0 ≤ fa * 0.4 := by nlinarith
      have h3 : 0 ≤ fk * 0.3 := by nlinarith
      have h2 : 0 ≤ fc * 0.15 := by nlinarith
      have h1 : 0 ≤ fm * 0.15 := by nlinarith
      linarith
    refine ⟨le_min hsum0 (by norm_num), min_le_right _ _, ?_⟩
    rw [min_eq_left hsum1]
    ring
  · exfalso
    exact hpos (by norm_num)

/-! ### C6: the minimalist-tote scenario -/

/-- The product of the spec's scenario. -/
def c6Product : AmazonProduct := { title := "Minimalist Canvas Tote Bag" }

/-- The style attributes of the spec's scenario: aesthetics
`["minimalist"]`, keywords `["tote bag"]`, colors and mood empty. -/
def c6Params : StyleSearchParams :=
  { aesthetics := ["minimalist"], searchKeywords := ["tote bag"] }

/-- C6: with both top-weighted groups matching fully and the empty groups
contributing 0, the score is at least 0.7 (it is exactly 0.4 + 0.3). -/
theorem c6Scenario_score_ge :
    (0.7 : Rat) ≤ calculateSimilarityScore c6Product c6Params := by
  have ha : countMatches ["minimalist"] (productText c6Product) = 1 := by decide
  have hk : countMatches ["tote bag"] (productText c6Product) = 1 := by decide
  simp only [calculateSimilarityScore, c6Params]
  rw [ha, hk]
  norm_num [countMatches, le_min_iff]

/-! ## Deduplication (reverseSearchService.ts:156-166)

`deduplicateProducts` filters with a `Set` of seen keys, where the key of a
product is the string `` `${product.title.toLowerCase()}-${product.price}` ``. -/

/-- The key string used by `deduplicateProducts`. -/
def dedupKey (product : AmazonProduct) : String :=
  jsToLower product.title ++ "-" ++ toString product.price

/-- The `filter` with its mutable `seen` set, as a recursion carrying the
set of keys seen so far. -/
def dedupAux : List String → List AmazonProduct → List AmazonProduct
  | _, [] => []
  | seen, p :: rest =>
    if dedupKey p ∈ seen then dedupAux seen rest
    else p :: dedupAux (dedupKey p :: seen) rest

/-- `deduplicateProducts` (reverseSearchService.ts:156-166). -/
def deduplicateProducts (products : List AmazonProduct) : List AmazonProduct :=
  dedupAux [] products

/-- The dedup output is a sublist of the input (order preserved, nothing new). -/
lemma dedupAux_sublist : ∀ (seen : List String) (l : List AmazonProduct),
    (dedupAux seen l).Sublist l := by
  intro seen l
  induction l generalizing seen with
  | nil => simp [dedupAux]
  | cons p rest ih =>
    simp only [dedupAux]
    split_ifs with h
    · exact (ih seen).cons p
    · exact (ih (dedupKey p :: seen)).cons₂ p

/-- No kept product's key is in the seen set, and the kept keys are distinct. -/
lemma dedupAux_keys : ∀ (seen : List String) (l : List AmazonProduct),
    (∀ q ∈ dedupAux seen l, dedupKey q ∉ seen) ∧
      ((dedupAux seen l).map dedupKey).Nodup := by
  intro seen l
  induction l generalizing seen with
  | nil => simp [dedupAux]
  | cons p rest ih =>
    simp only [dedupAux]
    split_ifs with h
    · exact ih seen
    · obtain ⟨hnotin, hnodup⟩ := ih (dedupKey p :: seen)
      refine ⟨?_, ?_⟩
      · intro q hq
        rcases List.mem_cons.mp hq with hq | hq
        · subst hq; exact h
        · exact fun hmem => hnotin q hq (List.mem_cons_of_mem _ hmem)
      · rw [List.map_cons, List.nodup_cons]
        refine ⟨?_, hnodup⟩
        intro hmem
        obtain ⟨q, hq, hkey⟩ := List.mem_map.mp hmem
        exact hnotin q hq (by rw [hkey]; exact List.mem_cons_self _ _)

/-- The first input product bearing any (not previously seen) key survives
deduplication. -/
lemma dedupAux_first : ∀ (seen : List String) (l : List AmazonProduct) (p : AmazonProduct),
    p ∈ l → dedupKey p ∉ seen →
    ∃ q, l.find? (fun x => dedupKey x == dedupKey p) = some q ∧ q ∈ dedupAux seen l := by
  intro seen l
  induction l generalizing seen with
  | nil => intro p hp; exact absurd hp (List.not_mem_nil p)
  | cons x rest ih =>
    intro p hp hseen
    by_cases hk : dedupKey x = dedupKey p
    · refine ⟨x, ?_, ?_⟩
      · rw [List.find?_cons_of_pos _ (by simp [hk])]
      · simp only [dedupAux]
        rw [if_neg (hk ▸ hseen)]
        exact List.mem_cons_self _ _
    · have hfind : (x :: rest).find? (fun y => dedupKey y == dedupKey p)
          = rest.find? (fun y => dedupKey y == dedupKey p) :=
        List.find?_cons_of_neg _ (by simp [hk])
      have hprest : p ∈ rest := by
        rcases List.mem_cons.mp hp with h | h
        · exact absurd (congrArg dedupKey h).symm hk
        · exact h
      simp only [dedupAux]
      split_ifs with hx
      · obtain ⟨q, hq1, hq2⟩ := ih seen p hprest hseen
        exact ⟨q, by rw [hfind]; exact hq1, hq2⟩
      · have hseen' : dedupKey p ∉ dedupKey x :: seen := by
          intro hmem
          rcases List.mem_cons.mp hmem with h | h
          · exact hk h.symm
          · exact hseen h
        obtain ⟨q, hq1, hq2⟩ := ih (dedupKey x :: seen) p hprest hseen'
        exact ⟨q, by rw [hfind]; exact hq1, List.mem_cons_of_mem _ hq2⟩

/-- C10 (amended): `deduplicateProducts` deduplicates by the key string
`lowercase(title) ++ "-" ++ price`: the output is an order-preserving
sublist of the input, no two kept products share a key string, and for every
input product the first input occurrence of its key string is kept.  (This
coincides with deduplication by the (case-insensitive title, price) pair
only when the key rendering is injective on the input — see
`deduplicateProducts_key_collision`.) -/
theorem deduplicateProducts_spec (products : List AmazonProduct) :
    (deduplicateProducts products).Sublist products ∧
    ((deduplicateProducts products).map dedupKey).Nodup ∧
    (∀ p ∈ products, ∃ q,
      products.find? (fun x => dedupKey x == dedupKey p) = some q ∧
      q ∈ deduplicateProducts products) := by
  refine ⟨dedupAux_sublist [] products, (dedupAux_keys [] products).2, ?_⟩
  intro p hp
  exact dedupAux_first [] products p hp (List.not_mem_nil _)

/-- First product of the colliding pair: title `"a-"`, price `5`. -/
def collisionProductA : AmazonProduct := { title := "a-", price := 5 }

/-- Second product of the colliding pair: title `"a"`, price `-5`. -/
def collisionProductB : AmazonProduct := { title := "a", price := -5 }

/-- C10's counterexample: the two products differ in both case-insensitive
title and price, yet both render to the key string `"a--5"`, so
`deduplicateProducts` drops the second one — the first occurrence of the
(title `"a"`, price `-5`) pair is not kept, refuting the claim as stated. -/
theorem deduplicateProducts_key_collision :
    deduplicateProducts [collisionProductA, collisionProductB] = [collisionProductA] ∧
    dedupKey collisionProductA = dedupKey collisionProductB ∧
    ¬(jsToLower collisionProductA.title = jsToLower collisionProductB.title ∧
      collisionProductA.price = collisionProductB.price) := by
  decide

/-! ## Catalog search (amazonService.ts:65-102) -/

/-- One record of `data.searchProductDetails` with the fields
`formatSearchProduct` reads (each possibly absent). -/
structure SearchProductDetail where
  asin : Option String := none
  productDescription : Option String := none
  dpUrl : Option String := none
  imgUrl : Option String := none
  price : Option Int := none
  retailPrice : Option Int := none
  productRating : Option String := none
  countReview : Option Nat := none
  prime : Option Bool := none
  deliveryMessage : Option String := none
deriving DecidableEq, Repr

/-- Numeric value of a digit character. -/
def digitVal (c : Char) : Nat := c.toNat - 48

/-- Value of a digit run read most-significant first. -/
def parseDigits (cs : List Char) : Nat := cs.foldl (fun acc c => acc * 10 + digitVal c) 0

/-- The first match of the regex `(\d+\.?\d*)` in the character list, as an
exact rational (the JS code applies `parseFloat` to it). -/
def parseRatingAux : List Char → Option Rat
  | [] => none
  | c :: rest =>
    if c.isDigit then
      let intPart := (c :: rest).takeWhile Char.isDigit
      let after := (c :: rest).dropWhile Char.isDigit
      let fracPart :=
        match after with
        | '.' :: more => more.takeWhile Char.isDigit
        | _ => []
      some ((parseDigits intPart : Rat) + (parseDigits fracPart : Rat) / (10 : Rat) ^ fracPart.length)
    else parseRatingAux rest

/-- `AmazonService.parseRating` (amazonService.ts:175-183): extract the
first decimal number of the rating string, 0 when absent or numberless. -/
def parseRating (ratingStr : Option String) : Rat :=
  match ratingStr with
  | none => 0
  | some s => (parseRatingAux s.data).getD 0

/-- `AmazonService.formatSearchProduct` (amazonService.ts:137-155). -/
def formatSearchProduct (productDetail : SearchProductDetail) : AmazonProduct :=
  let rating := parseRating productDetail.productRating
  let dpUrl := productDetail.dpUrl.getD ""
  let fullUrl := if dpUrl = "" then "" else "https://amazon.com" ++ dpUrl
  { product_id := productDetail.asin.getD ""
    title := productDetail.productDescription.getD ""
    url := fullUrl
    image := productDetail.imgUrl.getD ""
    price := productDetail.price.getD 0
    retail_price := productDetail.retailPrice.getD 0
    rating := rating
    reviews := productDetail.countReview.getD 0
    prime := productDetail.prime.getD false
    delivery_message := productDetail.deliveryMessage.getD "" }

/-- The JSON body of a catalog search response. -/
structure SearchResponseBody where
  responseStatus : Option String := none
  searchProductDetails : Option (List SearchProductDetail) := none
deriving DecidableEq, Repr

/-- The outcome of the catalog `fetch`: a rejected promise, or a response
with its `ok` flag, HTTP status code and JSON body (`none` when
`response.json()` fails). -/
inductive SearchFetchOutcome where
  | networkError (msg : String)
  | response (ok : Bool) (statusCode : Nat) (body : Option SearchResponseBody)
deriving DecidableEq, Repr

/-- `AmazonService.searchProducts` (amazonService.ts:65-102).  The whole
body sits in a `try` whose `catch` returns `[]`: the `Error` thrown on a
non-OK response is caught there, as is a fetch rejection or a JSON failure;
a body whose `responseStatus` is not `PRODUCT_FOUND_RESPONSE` returns `[]`
directly; otherwise the first `maxResults` of `searchProductDetails`
(defaulted to `[]`) are formatted. -/
def searchProducts (keywords : List String) (maxResults : Nat)
    (outcome : SearchFetchOutcome) : List AmazonProduct :=
  let _searchQuery := String.intercalate " " keywords
  match outcome with
  | .networkError _ => []
  | .response ok _ body =>
    if !ok then []
    else
      match body with
      | none => []
      | some data =>
        if data.responseStatus = some "PRODUCT_FOUND_RESPONSE" then
          ((data.searchProductDetails.getD []).take maxResults).map formatSearchProduct
        else []

/-- The claim's catalog failure modes: a network error thrown by `fetch`, a
non-OK HTTP response, or a response whose `responseStatus` is not
`PRODUCT_FOUND_RESPONSE` (an absent or unparsable body included). -/
def isCatalogFailure : SearchFetchOutcome → Prop
  | .networkError _ => True
  | .response ok _ body =>
    ok = false ∨ (∀ data, body = some data → data.responseStatus ≠ some "PRODUCT_FOUND_RESPONSE")

/-- C8: on every catalog failure mode `searchProducts` resolves to `[]`
rather than rejecting — in the embedding its result type is a plain list
because every `throw` in its body is caught by its own `catch`. -/
theorem searchProducts_failure_empty (keywords : List String) (maxResults : Nat)
    (outcome : SearchFetchOutcome) (h : isCatalogFailure outcome) :
    searchProducts keywords maxResults outcome = [] := by
  match outcome with
  | .networkError msg => rfl
  | .response ok code body =>
    rcases h with h | h
    · subst h; rfl
    · match ok, body with
      | false, _ => rfl
      | true, none => rfl
      | true, some data => simp [searchProducts, h data rfl]

/-- C8 at a concrete input: a network error yields the empty product list. -/
theorem searchProducts_failure_empty_witness :
    searchProducts ["minimalist", "tote bag"] 12 (.networkError "fetch failed") = [] :=
  searchProducts_failure_empty ["minimalist", "tote bag"] 12 (.networkError "fetch failed")
    trivial

/-! ## Style-portfolio submission (FoxitService.createStylePortfolio,
amazonService.ts:642-745)

The remote calls the method issues, in order: template load, main document
generation (result type `pdf`), a `docx` rendering of the same template,
upload of both, then the three asynchronous sub-job submissions.
`debugTemplate` only logs and swallows its own errors, and
`prepareTemplateData` is local computation; neither affects the result.
Each remote call's outcome is a field of the oracle below. -/

/-- Outcomes of the remote calls `createStylePortfolio` can issue: each is
the resolved value (template bytes, generated base64 content, uploaded
document id, or submitted task id) or a rejection. -/
structure PortfolioOracle where
  template : Except String String
  generatePdf : Except String String
  generateDocx : Except String String
  uploadPdf : Except String String
  uploadDocx : Except String String
  compress : Except String String
  convertImages : Except String String
  extractPages : Except String String
deriving Repr

/-- A request issued to the document service. -/
inductive FoxitRequest where
  | getTemplate
  | generateDocument (resultType : String)
  | uploadDocument (format : String)
  | compressDocument
  | convertToImages
  | extractFromDocument
deriving DecidableEq, Repr

/-- What `createStylePortfolio` returns to the caller. -/
structure PortfolioResult where
  mainDocument : String
  documentId : Option String := none
  docxVersion : Option String := none
  processedVersions : List (String × String) := []
deriving DecidableEq, Repr

/-- `FoxitService.createStylePortfolio` (amazonService.ts:642-745), paired
with the list of requests it issued.  Template load and the two generation
calls sit in the outer `try` whose `catch` rethrows; the uploads sit in an
inner `try` whose `catch` only logs, so an upload failure still returns the
already-generated main document (with `processedVersions` empty); each
sub-job submission carries its own `.catch(() => null)` and the `null`s are
dropped by `filter(Boolean)`; the `docx-version` entry is the uploaded DOCX
document id itself. -/
def createStylePortfolio (o : PortfolioOracle) :
    Except String PortfolioResult × List FoxitRequest :=
  match o.template with
  | .error e => (.error ("Failed to create style portfolio: " ++ e), [.getTemplate])
  | .ok _ =>
    match o.generatePdf with
    | .error e =>
      (.error ("Failed to create style portfolio: " ++ e),
        [.getTemplate, .generateDocument "pdf"])
    | .ok pdfContent =>
      match o.generateDocx with
      | .error e =>
        (.error ("Failed to create style portfolio: " ++ e),
          [.getTemplate, .generateDocument "pdf", .generateDocument "docx"])
      | .ok docxContent =>
        match o.uploadPdf with
        | .error _ =>
          (.ok { mainDocument := pdfContent, docxVersion := some docxContent },
            [.getTemplate, .generateDocument "pdf", .generateDocument "docx",
              .uploadDocument "pdf"])
        | .ok documentId =>
          match o.uploadDocx with
          | .error _ =>
            (.ok { mainDocument := pdfContent,
                    docxVersion := some docxContent,
                    documentId := some documentId },
              [.getTemplate, .generateDocument "pdf", .generateDocument "docx",
                .uploadDocument "pdf", .uploadDocument "docx"])
          | .ok docxDocumentId =>
            let processed := List.reduceOption
              [o.compress.toOption.map (fun taskId => ("compressed", taskId)),
                o.convertImages.toOption.map (fun taskId => ("social-images", taskId)),
                o.extractPages.toOption.map (fun taskId => ("quick-reference", taskId)),
                some ("docx-version", docxDocumentId)]
            (.ok { mainDocument := pdfContent,
                    docxVersion := some docxContent,
                    documentId := some documentId,
                    processedVersions := processed },
              [.getTemplate, .generateDocument "pdf", .generateDocument "docx",
                .uploadDocument "pdf", .uploadDocument "docx",
                .compressDocument, .convertToImages, .extractFromDocument])

/-- C7: with the template, the main (pdf) generation and both uploads
succeeding, the caller receives the generated main document together with
exactly the successfully submitted {type, taskId} pairs — each sub-job is
wrapped individually, so any combination of sub-job failures drops only the
failed entries — and exactly one main-document generation request is issued. -/
theorem createStylePortfolio_spec (o : PortfolioOracle)
    (tmpl pdfContent docxContent documentId docxDocumentId : String)
    (ht : o.template = .ok tmpl) (hp : o.generatePdf = .ok pdfContent)
    (hd : o.generateDocx = .ok docxContent) (hu : o.uploadPdf = .ok documentId)
    (hx : o.uploadDocx = .ok docxDocumentId) :
    (createStylePortfolio o).1 = Except.ok
      { mainDocument := pdfContent, docxVersion := some docxContent,
        documentId := some documentId,
        processedVersions :=
          (match o.compress with | .ok taskId => [("compressed", taskId)] | .error _ => []) ++
          (match o.convertImages with
            | .ok taskId => [("social-images", taskId)] | .error _ => []) ++
          (match o.extractPages with
            | .ok taskId => [("quick-reference", taskId)] | .error _ => []) ++
          [("docx-version", docxDocumentId)] } ∧
    (createStylePortfolio o).2.count (FoxitRequest.generateDocument "pdf") = 1 := by
  simp only [createStylePortfolio, ht, hp, hd, hu, hx]
  constructor
  · rcases o.compress with e1 | t1 <;> rcases o.convertImages with e2 | t2 <;>
      rcases o.extractPages with e3 | t3 <;>
      simp [List.reduceOption, List.filterMap_cons, Except.toOption]
  · decide

/-- C7's oracle at a concrete input: everything succeeds except the
compression sub-job. -/
def c7Oracle : PortfolioOracle :=
  { template := .ok "template-bytes", generatePdf := .ok "pdf-bytes",
    generateDocx := .ok "docx-bytes", uploadPdf := .ok "doc-1",
    uploadDocx := .ok "doc-2", compress := .error "compression failed",
    convertImages := .ok "task-img", extractPages := .ok "task-ext" }

/-- C7 at a concrete input: a failed compression sub-job drops only its own
entry; the main document, the other sub-jobs and the docx version survive. -/
theorem createStylePortfolio_spec_witness :
    (createStylePortfolio c7Oracle).1 = Except.ok
      { mainDocument := "pdf-bytes", docxVersion := some "docx-bytes",
        documentId := some "doc-1",
        processedVersions := [("social-images", "task-img"),
          ("quick-reference", "task-ext"), ("docx-version", "doc-2")] } ∧
    (createStylePortfolio c7Oracle).2.count (FoxitRequest.generateDocument "pdf") = 1 := by
  have h := createStylePortfolio_spec c7Oracle "template-bytes" "pdf-bytes" "docx-bytes"
    "doc-1" "doc-2" rfl rfl rfl rfl rfl
  simpa [c7Oracle] using h

/-! ## Style analysis (openaiService.ts `OpenAIService`)

`analyzeStylePreferences` builds a two-message prompt, calls `chat`, strips
a surrounding markdown code fence from the reply and `JSON.parse`s it; any
failure along the way is caught and replaced by a safe default.  The
network call is modelled by an outcome value and `JSON.parse` by an oracle
function `String → Option AnalysisResponse`.  The string surgery
(`trim`, `replace(/^```json\s*/, '')`, `replace(/\s*```$/, '')`) is
modelled on character lists. -/

/-- The outcome of the chat-completions `fetch`: a rejected promise, or a
response with its `ok` flag, HTTP status code, and
`data.choices[0]?.message?.content` (`none` in the outer `Option` when
`response.json()` fails; `none` in the inner one when the content field is
absent). -/
inductive ChatFetchOutcome where
  | networkError (msg : String)
  | response (ok : Bool) (statusCode : Nat) (content : Option (Option String))
deriving DecidableEq, Repr

/-- `OpenAIService.chat` (openaiService.ts:347-374): throws a wrapped error
on any fetch rejection, non-OK response or JSON failure; otherwise returns
the content, or the literal fallback sentence when the content is absent or
empty (JS `||`). -/
def chat (outcome : ChatFetchOutcome) : Except String String :=
  match outcome with
  | .networkError _ =>
    .error "Failed to get AI response. Please check your API configuration."
  | .response ok _ content =>
    if !ok then .error "Failed to get AI response. Please check your API configuration."
    else
      match content with
      | none => .error "Failed to get AI response. Please check your API configuration."
      | some c => .ok (jsOrStr c "Sorry, I could not generate a response.")

/-- The `styleAnalysis` object of an analysis response. -/
structure StyleAnalysis where
  aesthetics : List String := []
  productTypes : List String := []
  budget : Option String := none
  specificItems : List String := []
  lifestyle : String := ""
deriving DecidableEq, Repr

/-- The `AnalysisResponse` shape `analyzeStylePreferences` returns. -/
structure AnalysisResponse where
  styleAnalysis : StyleAnalysis
  followUpQuestions : List String
  recommendedCategories : List String
deriving DecidableEq, Repr

/-- The safe default returned by the `catch` of `analyzeStylePreferences`:
empty style-attribute lists, a generic clarifying question, and the two
stock categories. -/
def defaultAnalysisResponse : AnalysisResponse :=
  { styleAnalysis := {},
    followUpQuestions := ["Could you tell me more about your style preferences?"],
    recommendedCategories := ["clothing", "accessories"] }

/-- JS `String.prototype.trim` on a character list: drop whitespace at both
ends. -/
def jsTrimList (xs : List Char) : List Char :=
  ((xs.dropWhile Char.isWhitespace).reverse.dropWhile Char.isWhitespace).reverse

/-- JS `s.trim()`. -/
def jsTrim (s : String) : String := ⟨jsTrimList s.data⟩

/-- JS `replace(/\s*```$/, '')`: when the list ends with a backtick fence,
drop it together with the whitespace run before it. -/
def stripTrailingFence (xs : List Char) : List Char :=
  if ("```".data).isPrefixOf xs.reverse then
    ((xs.reverse.drop 3).dropWhile Char.isWhitespace).reverse
  else xs

/-- The fence stripping of `analyzeStylePreferences` (openaiService.ts:
408-413) on an already-trimmed character list: a leading ```` ```json ````
(checked first) or ```` ``` ```` is dropped with the whitespace after it
(`replace(/^```json\s*/, '')` and `replace(/^```\s*/, '')`), then the
trailing fence is removed; with no leading fence the list is untouched. -/
def stripFenceList (xs : List Char) : List Char :=
  if ("```json".data).isPrefixOf xs then
    stripTrailingFence ((xs.drop 7).dropWhile Char.isWhitespace)
  else if ("```".data).isPrefixOf xs then
    stripTrailingFence ((xs.drop 3).dropWhile Char.isWhitespace)
  else xs

/-- `let jsonString = response.trim()` followed by the conditional fence
replacements. -/
def stripCodeFence (s : String) : String := ⟨stripFenceList (jsTrimList s.data)⟩

/-- `OpenAIService.analyzeStylePreferences` (openaiService.ts:376-432):
`chat`, fence stripping, `JSON.parse`; every failure is caught and replaced
by `defaultAnalysisResponse`, so the function always resolves. -/
def analyzeStylePreferences (outcome : ChatFetchOutcome)
    (jsonParse : String → Option AnalysisResponse) : AnalysisResponse :=
  match chat outcome with
  | .error _ => defaultAnalysisResponse
  | .ok response =>
    match jsonParse (stripCodeFence response) with
    | some parsed => parsed
    | none => defaultAnalysisResponse

/-- Trimming a list whose fixed first chunk starts, and whose fixed last
chunk ends, with non-whitespace changes nothing. -/
lemma jsTrimList_append_rigid (l₁ bs l₂ : List Char)
    (h1 : l₁.dropWhile Char.isWhitespace = l₁) (h1e : l₁.isEmpty = false)
    (h2 : l₂.reverse.dropWhile Char.isWhitespace = l₂.reverse)
    (h2e : l₂.reverse.isEmpty = false) :
    jsTrimList (l₁ ++ bs ++ l₂) = l₁ ++ bs ++ l₂ := by
  unfold jsTrimList
  rw [List.append_assoc, List.dropWhile_append, h1, if_neg (by simp [h1e])]
  rw [List.reverse_append, List.reverse_append, List.append_assoc]
  rw [List.dropWhile_append, h2, if_neg (by simp [h2e])]
  simp [List.reverse_append, List.append_assoc]

/-- Removing the trailing fence after the leading whitespace of
`bs ++ "\n```"` has been consumed yields exactly `bs` trimmed: the
whitespace run before the closing fence is eaten by `/\s*```$/`. -/
lemma stripTrailingFence_after_ws (bs : List Char) :
    stripTrailingFence (List.dropWhile Char.isWhitespace (bs ++ "\n```".data)) =
      jsTrimList bs := by
  rw [List.dropWhile_append]
  by_cases hbs : (bs.dropWhile Char.isWhitespace).isEmpty = true
  · rw [if_pos hbs]
    have h1 : List.dropWhile Char.isWhitespace ("\n```".data) = "```".data := by decide
    have h2 : stripTrailingFence ("```".data) = [] := by decide
    rw [h1, h2]
    unfold jsTrimList
    rw [List.isEmpty_iff.mp hbs]
    simp
  · rw [if_neg hbs]
    unfold stripTrailingFence
    rw [List.reverse_append]
    have h3 : ("\n```".data).reverse = "```".data ++ "\n".data := by decide
    rw [h3, List.append_assoc]
    rw [if_pos (List.isPrefixOf_iff_prefix.mpr (List.prefix_append _ _))]
    rw [show (3 : Nat) = ("```".data).length from by decide, List.drop_left]
    rw [List.dropWhile_append, if_pos (by decide)]
    rfl

/-- A ```` ```json ````-fenced body is stripped back to the trimmed body. -/
lemma stripCodeFence_json_fenced (body : String) :
    stripCodeFence ("```json\n" ++ body ++ "\n```") = jsTrim body := by
  unfold stripCodeFence jsTrim
  congr 1
  rw [String.data_append, String.data_append]
  rw [jsTrimList_append_rigid _ _ _ (by decide) (by decide) (by decide) (by decide)]
  unfold stripFenceList
  rw [show "```json\n".data = "```json".data ++ "\n".data from by decide,
    List.append_assoc, List.append_assoc]
  rw [if_pos (List.isPrefixOf_iff_prefix.mpr (List.prefix_append _ _))]
  rw [show (7 : Nat) = ("```json".data).length from by decide, List.drop_left]
  rw [List.dropWhile_append, if_pos (by decide)]
  exact stripTrailingFence_after_ws body.data

/-- A plain ```` ``` ````-fenced body is stripped back to the trimmed body. -/
lemma stripCodeFence_plain_fenced (body : String) :
    stripCodeFence ("```\n" ++ body ++ "\n```") = jsTrim body := by
  unfold stripCodeFence jsTrim
  congr 1
  rw [String.data_append, String.data_append]
  rw [jsTrimList_append_rigid _ _ _ (by decide) (by decide) (by decide) (by decide)]
  unfold stripFenceList
  have hnp : ("```json".data).isPrefixOf
      ("```\n".data ++ body.data ++ "\n```".data) = false := by
    refine Bool.eq_false_iff.mpr ?_
    intro hpre
    rw [List.append_assoc] at hpre
    have hp := List.isPrefixOf_iff_prefix.mp hpre
    have hm : ("```\n".data) <+: ("```\n".data ++ (body.data ++ "\n```".data)) :=
      List.prefix_append _ _
    have : ("```\n".data) <+: ("```json".data) :=
      List.prefix_of_prefix_length_le hm hp (by decide)
    exact absurd this (by decide)
  rw [hnp, if_neg (show ¬(false = true) by decide)]
  rw [show "```\n".data = "```".data ++ "\n".data from by decide, List.append_assoc,
    List.append_assoc]
  rw [if_pos (List.isPrefixOf_iff_prefix.mpr (List.prefix_append _ _))]
  rw [show (3 : Nat) = ("```".data).length from by decide, List.drop_left]
  rw [List.dropWhile_append, if_pos (by decide)]
  exact stripTrailingFence_after_ws body.data

/-- C9: the analysis either returns exactly what `JSON.parse` produced from
the fence-stripped, trimmed reply, or the safe default — never an error;
the default carries empty style-attribute lists and the generic clarifying
question; and a reply wrapped in a leading/trailing ```` ``` ```` or
```` ```json ```` fence is parsed with the fence stripped. -/
theorem analyzeStylePreferences_spec (outcome : ChatFetchOutcome)
    (jsonParse : String → Option AnalysisResponse) :
    ((∃ content parsed, chat outcome = Except.ok content ∧
        jsonParse (stripCodeFence content) = some parsed ∧
        analyzeStylePreferences outcome jsonParse = parsed) ∨
      analyzeStylePreferences outcome jsonParse = defaultAnalysisResponse) ∧
    defaultAnalysisResponse.styleAnalysis.aesthetics = [] ∧
    defaultAnalysisResponse.styleAnalysis.productTypes = [] ∧
    defaultAnalysisResponse.styleAnalysis.specificItems = [] ∧
    defaultAnalysisResponse.styleAnalysis.budget = none ∧
    defaultAnalysisResponse.followUpQuestions =
      ["Could you tell me more about your style preferences?"] ∧
    (∀ body : String, stripCodeFence ("```json\n" ++ body ++ "\n```") = jsTrim body) ∧
    (∀ body : String, stripCodeFence ("```\n" ++ body ++ "\n```") = jsTrim body) := by
  refine ⟨?_, rfl, rfl, rfl, rfl, rfl, stripCodeFence_json_fenced,
    stripCodeFence_plain_fenced⟩
  rcases hco : chat outcome with e | content
  · exact Or.inr (by simp [analyzeStylePreferences, hco])
  · rcases hpa : jsonParse (stripCodeFence content) with _ | parsed
    · exact Or.inr (by simp [analyzeStylePreferences, hco, hpa])
    · exact Or.inl ⟨content, parsed, rfl, hpa,
        by simp [analyzeStylePreferences, hco, hpa]⟩

end Fesoni
